import Mathlib

/-!
Shallow embedding of `src/symphonia-format-isomp4/src/atoms/trun.rs`
(`TrunAtom` and `TrunAtom::read`) from the Symphonia repository, together
with theorems checking the natural-language specification against it.

Modelling choices:
* A byte stream is a `List Nat` of bytes; reading advances by dropping
  bytes from the front.  Byte values are reduced `% 256` when a word is
  assembled, so any list models a stream of genuine bytes.
* Rust's `u32`/`u64` arithmetic is modelled on `Nat` with an explicit
  `% 2^64` where the source adds into a `u64` accumulator (the only place
  where overflow could matter).
* Fallible reads return `Except Error`; `TrunAtom::read` itself returns a
  `DResult`, which has a dedicated `panic` constructor because the source
  contains a `todo!` macro invocation (a Rust panic) on the
  first-sample-flags-present path.
* `AtomHeader` (external to the file) carries no information used by any
  property below, so the `header` field of the Rust struct is omitted from
  the record.
-/

/-- Error values a read can produce.  `ioError` models an I/O failure of the
underlying reader (end of stream); `decodeError` models
`symphonia_core::errors::decode_error`.  The `unsupported` and `limitError`
constructors are modelled from the spec: the external error taxonomy names
a recoverable `UnsupportedFeature` error and a `ResourceLimitExceeded`
error; `trun.rs` itself never constructs them, but they must exist for the
spec's claims about them to be statable. -/
inductive Error where
  | ioError
  | decodeError (msg : String)
  | unsupported (msg : String)
  | limitError (msg : String)
deriving DecidableEq, Repr

/-- Modelled from the spec: the big-endian primitive reader interface
("read 4 bytes as u32" over a positioned cursor); a short read is an I/O
failure.  Models `ByteStream::read_be_u32` of `symphonia_core::io`. -/
def read_be_u32 : List Nat → Except Error (Nat × List Nat)
  | b0 :: b1 :: b2 :: b3 :: rest =>
      .ok ((b0 % 256) * 16777216 + (b1 % 256) * 65536 + (b2 % 256) * 256 + (b3 % 256), rest)
  | _ => .error .ioError

/-- Modelled from the spec: the sign-extension utility converting an
unsigned fixed-width value to a signed integer of the same bit width
(bit pattern 0xFFFFFFFF at width 32 decodes to -1).  Models
`symphonia_core::util::bits::sign_extend_leq32_to_i32`. -/
def sign_extend_leq32_to_i32 (value width : Nat) : Int :=
  let v := value % 2 ^ width
  if v < 2 ^ (width - 1) then (v : Int) else (v : Int) - 2 ^ width

/-- The `TrunAtom` record of `trun.rs` (the `header : AtomHeader` field is
omitted; see the module docstring). -/
structure TrunAtom where
  flags : Nat
  data_offset : Option Int
  sample_count : Nat
  first_sample_flags : Option Nat
  sample_duration : List Nat
  sample_size : List Nat
  sample_flags : List Nat
  total_sample_size : Nat
  total_sample_duration : Nat
deriving DecidableEq, Repr

namespace TrunAtom

def SAMPLE_DURATION_PRESENT : Nat := 0x100
def SAMPLE_SIZE_PRESENT : Nat := 0x200
def SAMPLE_FLAGS_PRESENT : Nat := 0x400
def SAMPLE_COMPOSITION_TIME_OFFSETS_PRESENT : Nat := 0x800

end TrunAtom

/-- Track fragment run atom flags local to `TrunAtom::read`. -/
def DATA_OFFSET_PRESENT : Nat := 0x1

def FIRST_SAMPLE_FLAGS_PRESENT : Nat := 0x4

/-- Result of `TrunAtom::read`: success (with the remaining stream), a
returned error value, or a Rust panic (the `todo!` path). -/
inductive DResult where
  | ok (atom : TrunAtom) (rest : List Nat)
  | err (e : Error)
  | panic (msg : String)
deriving DecidableEq, Repr

namespace DResult

def isOk : DResult → Bool
  | .ok _ _ => true
  | _ => false

def isPanic : DResult → Bool
  | .panic _ => true
  | _ => false

def isLimitErr : DResult → Bool
  | .err (.limitError _) => true
  | _ => false

def isDecodeErr : DResult → Bool
  | .err (.decodeError _) => true
  | _ => false

end DResult

/-- The `data_offset` read of `TrunAtom::read`: `None` when the
data-offset bit is clear, otherwise a 4-byte read sign-extended to i32. -/
def readDataOffset (flags : Nat) (s : List Nat) : Except Error (Option Int × List Nat) :=
  if flags &&& DATA_OFFSET_PRESENT = 0 then .ok (none, s)
  else
    match read_be_u32 s with
    | .error e => .error e
    | .ok (v, s1) => .ok (some (sign_extend_leq32_to_i32 v 32), s1)

/-- The `first_sample_flags` read of `TrunAtom::read`: `None` when the
first-sample-flags bit is clear, otherwise a 4-byte read. -/
def readFirstSampleFlags (flags : Nat) (s : List Nat) : Except Error (Option Nat × List Nat) :=
  if flags &&& FIRST_SAMPLE_FLAGS_PRESENT = 0 then .ok (none, s)
  else
    match read_be_u32 s with
    | .error e => .error e
    | .ok (v, s1) => .ok (some v, s1)

/-- The mutable state of the per-sample loop of `TrunAtom::read`. -/
structure LoopState where
  sample_duration : List Nat
  sample_size : List Nat
  sample_flags : List Nat
  total_sample_size : Nat
  total_sample_duration : Nat
  stream : List Nat
deriving DecidableEq, Repr

/-- The `u64` modulus: the duration/size totals are accumulated in `u64`. -/
def u64Mod : Nat := 18446744073709551616

/-- One loop iteration, duration field: if the sample-duration bit is set,
read a u32, add it into the `u64` running total and push it. -/
def readDurationField (flags : Nat) (st : LoopState) : Except Error LoopState :=
  if flags &&& TrunAtom.SAMPLE_DURATION_PRESENT ≠ 0 then
    match read_be_u32 st.stream with
    | .error e => .error e
    | .ok (duration, s1) =>
        .ok { st with
          total_sample_duration := (st.total_sample_duration + duration) % u64Mod,
          sample_duration := st.sample_duration ++ [duration],
          stream := s1 }
  else .ok st

/-- One loop iteration, size field. -/
def readSizeField (flags : Nat) (st : LoopState) : Except Error LoopState :=
  if flags &&& TrunAtom.SAMPLE_SIZE_PRESENT ≠ 0 then
    match read_be_u32 st.stream with
    | .error e => .error e
    | .ok (size, s1) =>
        .ok { st with
          total_sample_size := (st.total_sample_size + size) % u64Mod,
          sample_size := st.sample_size ++ [size],
          stream := s1 }
  else .ok st

/-- One loop iteration, per-sample flags field. -/
def readFlagsField (flags : Nat) (st : LoopState) : Except Error LoopState :=
  if flags &&& TrunAtom.SAMPLE_FLAGS_PRESENT ≠ 0 then
    match read_be_u32 st.stream with
    | .error e => .error e
    | .ok (v, s1) => .ok { st with sample_flags := st.sample_flags ++ [v], stream := s1 }
  else .ok st

/-- One loop iteration, composition-time-offset field: read and discard. -/
def readCtsField (flags : Nat) (st : LoopState) : Except Error LoopState :=
  if flags &&& TrunAtom.SAMPLE_COMPOSITION_TIME_OFFSETS_PRESENT ≠ 0 then
    match read_be_u32 st.stream with
    | .error e => .error e
    | .ok (_, s1) => .ok { st with stream := s1 }
  else .ok st

/-- One full iteration of the `for _ in 0..sample_count` loop body. -/
def readRow (flags : Nat) (st : LoopState) : Except Error LoopState :=
  match readDurationField flags st with
  | .error e => .error e
  | .ok st1 =>
    match readSizeField flags st1 with
    | .error e => .error e
    | .ok st2 =>
      match readFlagsField flags st2 with
      | .error e => .error e
      | .ok st3 => readCtsField flags st3

/-- The per-sample loop of `TrunAtom::read`, iterated `count` times. -/
def readSamples (flags : Nat) : Nat → LoopState → Except Error LoopState
  | 0, st => .ok st
  | n + 1, st =>
    match readRow flags st with
    | .error e => .error e
    | .ok st1 => readSamples flags n st1

/-- The body of `TrunAtom::read` after the extended header (version and
flags) has been consumed: `sample_count`, optional `data_offset`, optional
`first_sample_flags`, the `todo!` gate, the (dead) conflicting-flags check,
and the per-sample loop. -/
def readAfterExtra (flags : Nat) (s : List Nat) : DResult :=
  match read_be_u32 s with
  | .error e => .err e
  | .ok (sample_count, s1) =>
    match readDataOffset flags s1 with
    | .error e => .err e
    | .ok (data_offset, s2) =>
      match readFirstSampleFlags flags s2 with
      | .error e => .err e
      | .ok (first_sample_flags, s3) =>
        if first_sample_flags.isSome then
          .panic "not yet implemented: support truns with first-sample-flags-present"
        else if first_sample_flags.isSome && (flags &&& TrunAtom.SAMPLE_FLAGS_PRESENT != 0) then
          .err (.decodeError "sample-flag-present and first-sample-flags-present flags are set")
        else
          match readSamples flags sample_count ⟨[], [], [], 0, 0, s3⟩ with
          | .error e => .err e
          | .ok st =>
            .ok { flags := flags
                  data_offset := data_offset
                  sample_count := sample_count
                  first_sample_flags := first_sample_flags
                  sample_duration := st.sample_duration
                  sample_size := st.sample_size
                  sample_flags := st.sample_flags
                  total_sample_size := st.total_sample_size
                  total_sample_duration := st.total_sample_duration } st.stream

/-- Modelled from the spec: `AtomHeader::read_extra` reads the extended
header, a 1-byte version followed by a 3-byte big-endian flags field. -/
def read_extra : List Nat → Except Error (Nat × Nat × List Nat)
  | v :: f0 :: f1 :: f2 :: rest =>
      .ok (v % 256, (f0 % 256) * 65536 + (f1 % 256) * 256 + (f2 % 256), rest)
  | _ => .error .ioError

/-- The whole of `TrunAtom::read`: read the extended header, then decode
the run record. -/
def TrunAtom.read (s : List Nat) : DResult :=
  match read_extra s with
  | .error e => .err e
  | .ok (_, flags, s1) => readAfterExtra flags s1

/-- Bytes a successful decode consumes before the per-sample loop:
4 for `sample_count`, 4 more for each optional header field present. -/
def headerBytes (flags : Nat) : Nat :=
  4 + (if flags &&& DATA_OFFSET_PRESENT ≠ 0 then 4 else 0)
    + (if flags &&& FIRST_SAMPLE_FLAGS_PRESENT ≠ 0 then 4 else 0)

/-- Bytes one per-sample row consumes: 4 for each present column. -/
def rowBytes (flags : Nat) : Nat :=
  (if flags &&& TrunAtom.SAMPLE_DURATION_PRESENT ≠ 0 then 4 else 0)
    + (if flags &&& TrunAtom.SAMPLE_SIZE_PRESENT ≠ 0 then 4 else 0)
    + (if flags &&& TrunAtom.SAMPLE_FLAGS_PRESENT ≠ 0 then 4 else 0)
    + (if flags &&& TrunAtom.SAMPLE_COMPOSITION_TIME_OFFSETS_PRESENT ≠ 0 then 4 else 0)

/-! ### Facts about the primitive reads -/

theorem read_be_u32_ok {s : List Nat} {v : Nat} {rest : List Nat}
    (h : read_be_u32 s = .ok (v, rest)) :
    v < 4294967296 ∧ rest = s.drop 4 ∧ s.length = 4 + rest.length := by
  match s with
  | [] => simp [read_be_u32] at h
  | [a] => simp [read_be_u32] at h
  | [a, b] => simp [read_be_u32] at h
  | [a, b, c] => simp [read_be_u32] at h
  | a :: b :: c :: d :: t =>
    simp only [read_be_u32, Except.ok.injEq, Prod.mk.injEq] at h
    obtain ⟨hv, hr⟩ := h
    subst hv; subst hr
    refine ⟨?_, by simp, by simp; omega⟩
    have ha : a % 256 < 256 := Nat.mod_lt _ (by norm_num)
    have hb : b % 256 < 256 := Nat.mod_lt _ (by norm_num)
    have hc : c % 256 < 256 := Nat.mod_lt _ (by norm_num)
    have hd : d % 256 < 256 := Nat.mod_lt _ (by norm_num)
    omega

theorem read_be_u32_err {s : List Nat} {e : Error}
    (h : read_be_u32 s = .error e) : e = .ioError := by
  match s with
  | [] | [a] | [a, b] | [a, b, c] => simpa [read_be_u32] using h.symm
  | a :: b :: c :: d :: t => simp [read_be_u32] at h

/-! ### Effect of one field read inside the loop -/

theorem readDurationField_ok {flags : Nat} {st st' : LoopState}
    (hlt : st.total_sample_duration < u64Mod)
    (h : readDurationField flags st = .ok st') :
    ∃ ds : List Nat,
      st'.sample_duration = st.sample_duration ++ ds ∧
      st'.sample_size = st.sample_size ∧
      st'.sample_flags = st.sample_flags ∧
      st'.total_sample_size = st.total_sample_size ∧
      ds.length = (if flags &&& TrunAtom.SAMPLE_DURATION_PRESENT ≠ 0 then 1 else 0) ∧
      (∀ x ∈ ds, x < 4294967296) ∧
      st'.total_sample_duration = (st.total_sample_duration + ds.sum) % u64Mod ∧
      st'.stream = st.stream.drop (4 * ds.length) ∧
      st.stream.length = 4 * ds.length + st'.stream.length := by
  by_cases hb : flags &&& TrunAtom.SAMPLE_DURATION_PRESENT ≠ 0
  · rw [readDurationField, if_pos hb] at h
    cases hr : read_be_u32 st.stream with
    | error e => rw [hr] at h; simp at h
    | ok p =>
      obtain ⟨v, s1⟩ := p
      rw [hr] at h
      simp only [Except.ok.injEq] at h
      obtain ⟨hv, hdrop, hlen⟩ := read_be_u32_ok hr
      subst h
      exact ⟨[v], by simp, by simp, by simp, by simp, by simp [hb],
        by simpa using hv, by simp, by simp [hdrop], by simpa using hlen⟩
  · rw [readDurationField, if_neg hb] at h
    simp only [Except.ok.injEq] at h
    subst h
    exact ⟨[], by simp [hb, Nat.mod_eq_of_lt hlt]⟩

theorem readSizeField_ok {flags : Nat} {st st' : LoopState}
    (hlt : st.total_sample_size < u64Mod)
    (h : readSizeField flags st = .ok st') :
    ∃ ss : List Nat,
      st'.sample_size = st.sample_size ++ ss ∧
      st'.sample_duration = st.sample_duration ∧
      st'.sample_flags = st.sample_flags ∧
      st'.total_sample_duration = st.total_sample_duration ∧
      ss.length = (if flags &&& TrunAtom.SAMPLE_SIZE_PRESENT ≠ 0 then 1 else 0) ∧
      (∀ x ∈ ss, x < 4294967296) ∧
      st'.total_sample_size = (st.total_sample_size + ss.sum) % u64Mod ∧
      st'.stream = st.stream.drop (4 * ss.length) ∧
      st.stream.length = 4 * ss.length + st'.stream.length := by
  by_cases hb : flags &&& TrunAtom.SAMPLE_SIZE_PRESENT ≠ 0
  · rw [readSizeField, if_pos hb] at h
    cases hr : read_be_u32 st.stream with
    | error e => rw [hr] at h; simp at h
    | ok p =>
      obtain ⟨v, s1⟩ := p
      rw [hr] at h
      simp only [Except.ok.injEq] at h
      obtain ⟨hv, hdrop, hlen⟩ := read_be_u32_ok hr
      subst h
      exact ⟨[v], by simp, by simp, by simp, by simp, by simp [hb],
        by simpa using hv, by simp, by simp [hdrop], by simpa using hlen⟩
  · rw [readSizeField, if_neg hb] at h
    simp only [Except.ok.injEq] at h
    subst h
    exact ⟨[], by simp [hb, Nat.mod_eq_of_lt hlt]⟩

theorem readFlagsField_ok {flags : Nat} {st st' : LoopState}
    (h : readFlagsField flags st = .ok st') :
    ∃ fs : List Nat,
      st'.sample_flags = st.sample_flags ++ fs ∧
      st'.sample_duration = st.sample_duration ∧
      st'.sample_size = st.sample_size ∧
      st'.total_sample_duration = st.total_sample_duration ∧
      st'.total_sample_size = st.total_sample_size ∧
      fs.length = (if flags &&& TrunAtom.SAMPLE_FLAGS_PRESENT ≠ 0 then 1 else 0) ∧
      st'.stream = st.stream.drop (4 * fs.length) ∧
      st.stream.length = 4 * fs.length + st'.stream.length := by
  by_cases hb : flags &&& TrunAtom.SAMPLE_FLAGS_PRESENT ≠ 0
  · rw [readFlagsField, if_pos hb] at h
    cases hr : read_be_u32 st.stream with
    | error e => rw [hr] at h; simp at h
    | ok p =>
      obtain ⟨v, s1⟩ := p
      rw [hr] at h
      simp only [Except.ok.injEq] at h
      obtain ⟨hv, hdrop, hlen⟩ := read_be_u32_ok hr
      subst h
      exact ⟨[v], by simp, by simp, by simp, by simp, by simp,
        by simp [hb], by simp [hdrop], by simpa using hlen⟩
  · rw [readFlagsField, if_neg hb] at h
    simp only [Except.ok.injEq] at h
    subst h
    exact ⟨[], by simp [hb]⟩

theorem readCtsField_ok {flags : Nat} {st st' : LoopState}
    (h : readCtsField flags st = .ok st') :
    st'.sample_duration = st.sample_duration ∧
    st'.sample_size = st.sample_size ∧
    st'.sample_flags = st.sample_flags ∧
    st'.total_sample_duration = st.total_sample_duration ∧
    st'.total_sample_size = st.total_sample_size ∧
    st'.stream = st.stream.drop
      (if flags &&& TrunAtom.SAMPLE_COMPOSITION_TIME_OFFSETS_PRESENT ≠ 0 then 4 else 0) ∧
    st.stream.length =
      (if flags &&& TrunAtom.SAMPLE_COMPOSITION_TIME_OFFSETS_PRESENT ≠ 0 then 4 else 0)
        + st'.stream.length := by
  by_cases hb : flags &&& TrunAtom.SAMPLE_COMPOSITION_TIME_OFFSETS_PRESENT ≠ 0
  · rw [readCtsField, if_pos hb] at h
    cases hr : read_be_u32 st.stream with
    | error e => rw [hr] at h; simp at h
    | ok p =>
      obtain ⟨v, s1⟩ := p
      rw [hr] at h
      simp only [Except.ok.injEq] at h
      obtain ⟨hv, hdrop, hlen⟩ := read_be_u32_ok hr
      subst h
      exact ⟨by simp, by simp, by simp, by simp, by simp,
        by simp [hb, hdrop], by simpa [hb] using hlen⟩
  · rw [readCtsField, if_neg hb] at h
    simp only [Except.ok.injEq] at h
    subst h
    simp [hb]

/-! ### Effect of one full loop iteration -/

theorem readRow_ok {flags : Nat} {st st' : LoopState}
    (hd : st.total_sample_duration < u64Mod)
    (hs : st.total_sample_size < u64Mod)
    (h : readRow flags st = .ok st') :
    ∃ ds ss fs : List Nat,
      st'.sample_duration = st.sample_duration ++ ds ∧
      st'.sample_size = st.sample_size ++ ss ∧
      st'.sample_flags = st.sample_flags ++ fs ∧
      ds.length = (if flags &&& TrunAtom.SAMPLE_DURATION_PRESENT ≠ 0 then 1 else 0) ∧
      ss.length = (if flags &&& TrunAtom.SAMPLE_SIZE_PRESENT ≠ 0 then 1 else 0) ∧
      fs.length = (if flags &&& TrunAtom.SAMPLE_FLAGS_PRESENT ≠ 0 then 1 else 0) ∧
      (∀ x ∈ ds, x < 4294967296) ∧ (∀ x ∈ ss, x < 4294967296) ∧
      st'.total_sample_duration = (st.total_sample_duration + ds.sum) % u64Mod ∧
      st'.total_sample_size = (st.total_sample_size + ss.sum) % u64Mod ∧
      st'.stream = st.stream.drop (rowBytes flags) ∧
      st.stream.length = rowBytes flags + st'.stream.length := by
  rw [readRow] at h
  split at h
  · simp at h
  · rename_i st1 h1
    split at h
    · simp at h
    · rename_i st2 h2
      split at h
      · simp at h
      · rename_i st3 h3
        obtain ⟨ds, d1, d2, d3, d4, d5, d6, d7, d8, d9⟩ := readDurationField_ok hd h1
        have hs1 : st1.total_sample_size < u64Mod := by rw [d4]; exact hs
        obtain ⟨ss, e1, e2, e3, e4, e5, e6, e7, e8, e9⟩ := readSizeField_ok hs1 h2
        obtain ⟨fs, f1, f2, f3, f4, f5, f6, f7, f8⟩ := readFlagsField_ok h3
        obtain ⟨g1, g2, g3, g4, g5, g6, g7⟩ := readCtsField_ok h
        refine ⟨ds, ss, fs, ?_, ?_, ?_, d5, e5, f6, d6, e6, ?_, ?_, ?_, ?_⟩
        · rw [g1, f2, e2, d1]
        · rw [g2, f3, e1, d2]
        · rw [g3, f1, e3, d3]
        · rw [g4, f4, e4, d7]
        · rw [g5, f5, e7, d4]
        · rw [g6, f7, e8, d8, List.drop_drop, List.drop_drop, List.drop_drop, d5, e5, f6]
          congr 1
          simp only [rowBytes]
          split_ifs <;> omega
        · rw [d5] at d9
          rw [e5] at e9
          rw [f6] at f8
          simp only [rowBytes]
          split_ifs at d9 e9 f8 g7 ⊢ <;> omega

/-! ### Effect of the whole per-sample loop -/

theorem readSamples_ok {flags : Nat} :
    ∀ (n : Nat) {st st' : LoopState},
    st.total_sample_duration < u64Mod → st.total_sample_size < u64Mod →
    readSamples flags n st = .ok st' →
    ∃ ds ss fs : List Nat,
      st'.sample_duration = st.sample_duration ++ ds ∧
      st'.sample_size = st.sample_size ++ ss ∧
      st'.sample_flags = st.sample_flags ++ fs ∧
      ds.length = (if flags &&& TrunAtom.SAMPLE_DURATION_PRESENT ≠ 0 then n else 0) ∧
      ss.length = (if flags &&& TrunAtom.SAMPLE_SIZE_PRESENT ≠ 0 then n else 0) ∧
      fs.length = (if flags &&& TrunAtom.SAMPLE_FLAGS_PRESENT ≠ 0 then n else 0) ∧
      (∀ x ∈ ds, x < 4294967296) ∧ (∀ x ∈ ss, x < 4294967296) ∧
      st'.total_sample_duration = (st.total_sample_duration + ds.sum) % u64Mod ∧
      st'.total_sample_size = (st.total_sample_size + ss.sum) % u64Mod ∧
      st'.stream = st.stream.drop (n * rowBytes flags) ∧
      st.stream.length = n * rowBytes flags + st'.stream.length := by
  intro n
  induction n with
  | zero =>
    intro st st' hd hs h
    simp only [readSamples, Except.ok.injEq] at h
    subst h
    exact ⟨[], [], [], by simp, by simp, by simp, by simp, by simp, by simp,
      by simp, by simp, by simp [Nat.mod_eq_of_lt hd], by simp [Nat.mod_eq_of_lt hs],
      by simp, by simp⟩
  | succ n ih =>
    intro st st' hd hs h
    rw [readSamples] at h
    split at h
    · simp at h
    · rename_i st1 h1
      obtain ⟨ds₁, ss₁, fs₁, a1, a2, a3, a4, a5, a6, a7, a8, a9, a10, a11, a12⟩ :=
        readRow_ok hd hs h1
      have hd1 : st1.total_sample_duration < u64Mod := by
        rw [a9]; exact Nat.mod_lt _ (by norm_num [u64Mod])
      have hs1 : st1.total_sample_size < u64Mod := by
        rw [a10]; exact Nat.mod_lt _ (by norm_num [u64Mod])
      obtain ⟨ds₂, ss₂, fs₂, b1, b2, b3, b4, b5, b6, b7, b8, b9, b10, b11, b12⟩ :=
        ih hd1 hs1 h
      refine ⟨ds₁ ++ ds₂, ss₁ ++ ss₂, fs₁ ++ fs₂,
        ?_, ?_, ?_, ?_, ?_, ?_, ?_, ?_, ?_, ?_, ?_, ?_⟩
      · rw [b1, a1, List.append_assoc]
      · rw [b2, a2, List.append_assoc]
      · rw [b3, a3, List.append_assoc]
      · rw [List.length_append, a4, b4]; split_ifs <;> omega
      · rw [List.length_append, a5, b5]; split_ifs <;> omega
      · rw [List.length_append, a6, b6]; split_ifs <;> omega
      · intro x hx
        rcases List.mem_append.mp hx with hx | hx
        exacts [a7 x hx, b7 x hx]
      · intro x hx
        rcases List.mem_append.mp hx with hx | hx
        exacts [a8 x hx, b8 x hx]
      · rw [b9, a9, List.sum_append, Nat.mod_add_mod, Nat.add_assoc]
      · rw [b10, a10, List.sum_append, Nat.mod_add_mod, Nat.add_assoc]
      · rw [b11, a11, List.drop_drop]
        congr 1
        ring
      · rw [a12, b12]
        ring

/-! ### Every error the decoder returns is an I/O error -/

theorem readDataOffset_err {flags : Nat} {s : List Nat} {e : Error}
    (h : readDataOffset flags s = .error e) : e = .ioError := by
  rw [readDataOffset] at h
  split at h
  · simp at h
  · split at h
    · rename_i e' hr
      simp only [Except.error.injEq] at h
      subst h
      exact read_be_u32_err hr
    · simp at h

theorem readFirstSampleFlags_err {flags : Nat} {s : List Nat} {e : Error}
    (h : readFirstSampleFlags flags s = .error e) : e = .ioError := by
  rw [readFirstSampleFlags] at h
  split at h
  · simp at h
  · split at h
    · rename_i e' hr
      simp only [Except.error.injEq] at h
      subst h
      exact read_be_u32_err hr
    · simp at h

theorem readDurationField_err {flags : Nat} {st : LoopState} {e : Error}
    (h : readDurationField flags st = .error e) : e = .ioError := by
  rw [readDurationField] at h
  split at h
  · split at h
    · rename_i e' hr
      simp only [Except.error.injEq] at h
      subst h
      exact read_be_u32_err hr
    · simp at h
  · simp at h

theorem readSizeField_err {flags : Nat} {st : LoopState} {e : Error}
    (h : readSizeField flags st = .error e) : e = .ioError := by
  rw [readSizeField] at h
  split at h
  · split at h
    · rename_i e' hr
      simp only [Except.error.injEq] at h
      subst h
      exact read_be_u32_err hr
    · simp at h
  · simp at h

theorem readFlagsField_err {flags : Nat} {st : LoopState} {e : Error}
    (h : readFlagsField flags st = .error e) : e = .ioError := by
  rw [readFlagsField] at h
  split at h
  · split at h
    · rename_i e' hr
      simp only [Except.error.injEq] at h
      subst h
      exact read_be_u32_err hr
    · simp at h
  · simp at h

theorem readCtsField_err {flags : Nat} {st : LoopState} {e : Error}
    (h : readCtsField flags st = .error e) : e = .ioError := by
  rw [readCtsField] at h
  split at h
  · split at h
    · rename_i e' hr
      simp only [Except.error.injEq] at h
      subst h
      exact read_be_u32_err hr
    · simp at h
  · simp at h

theorem readRow_err {flags : Nat} {st : LoopState} {e : Error}
    (h : readRow flags st = .error e) : e = .ioError := by
  rw [readRow] at h
  split at h
  · rename_i e' h1
    simp only [Except.error.injEq] at h
    subst h
    exact readDurationField_err h1
  · split at h
    · rename_i e' h2
      simp only [Except.error.injEq] at h
      subst h
      exact readSizeField_err h2
    · split at h
      · rename_i e' h3
        simp only [Except.error.injEq] at h
        subst h
        exact readFlagsField_err h3
      · exact readCtsField_err h

theorem readSamples_err {flags : Nat} :
    ∀ {n : Nat} {st : LoopState} {e : Error},
    readSamples flags n st = .error e → e = .ioError := by
  intro n
  induction n with
  | zero => intro st e h; simp [readSamples] at h
  | succ n ih =>
    intro st e h
    rw [readSamples] at h
    split at h
    · rename_i e' hrow
      simp only [Except.error.injEq] at h
      subst h
      exact readRow_err hrow
    · exact ih h

/-! ### Branch characterizations of the optional header reads -/

theorem readFirstSampleFlags_ok_none {flags : Nat} {s s' : List Nat}
    (h : readFirstSampleFlags flags s = .ok (none, s')) :
    flags &&& FIRST_SAMPLE_FLAGS_PRESENT = 0 ∧ s' = s := by
  rw [readFirstSampleFlags] at h
  split at h
  · rename_i hb
    simp only [Except.ok.injEq, Prod.mk.injEq] at h
    exact ⟨hb, h.2.symm⟩
  · split at h
    · simp at h
    · simp at h

theorem readFirstSampleFlags_bitSet {flags : Nat} (s : List Nat)
    (hb : flags &&& FIRST_SAMPLE_FLAGS_PRESENT ≠ 0) :
    readFirstSampleFlags flags s = .error .ioError ∨
    ∃ v s', readFirstSampleFlags flags s = .ok (some v, s') := by
  cases hr : read_be_u32 s with
  | error e =>
    have he := read_be_u32_err hr
    subst he
    left
    rw [readFirstSampleFlags, if_neg hb, hr]
  | ok p =>
    obtain ⟨v, s'⟩ := p
    right
    exact ⟨v, s', by rw [readFirstSampleFlags, if_neg hb, hr]⟩

theorem readDataOffset_ok {flags : Nat} {s s' : List Nat} {dOff : Option Int}
    (h : readDataOffset flags s = .ok (dOff, s')) :
    (dOff.isSome = (flags &&& DATA_OFFSET_PRESENT != 0)) ∧
    s' = s.drop (if flags &&& DATA_OFFSET_PRESENT ≠ 0 then 4 else 0) ∧
    s.length = (if flags &&& DATA_OFFSET_PRESENT ≠ 0 then 4 else 0) + s'.length ∧
    (∀ v s2, read_be_u32 s = .ok (v, s2) → flags &&& DATA_OFFSET_PRESENT ≠ 0 →
      dOff = some (sign_extend_leq32_to_i32 v 32)) := by
  rw [readDataOffset] at h
  split at h
  · rename_i hb
    simp only [Except.ok.injEq, Prod.mk.injEq] at h
    obtain ⟨h1, h2⟩ := h
    subst h1
    subst h2
    refine ⟨by simp [hb], by simp [hb], by simp [hb], ?_⟩
    intro v s2 _ hbne
    exact absurd hb hbne
  · rename_i hb
    split at h
    · simp at h
    · rename_i v s1 hr
      simp only [Except.ok.injEq, Prod.mk.injEq] at h
      obtain ⟨h1, h2⟩ := h
      subst h1
      subst h2
      obtain ⟨hv, hdrop, hlen⟩ := read_be_u32_ok hr
      have hbne : flags &&& DATA_OFFSET_PRESENT ≠ 0 := hb
      refine ⟨by simp [hbne], ?_, ?_, ?_⟩
      · rw [if_pos hbne]
        exact hdrop
      · rw [if_pos hbne]
        exact hlen
      · intro v' s2 hr' _
        rw [hr] at hr'
        simp only [Except.ok.injEq, Prod.mk.injEq] at hr'
        rw [hr'.1]

/-! ### Decomposition of a successful decode -/

theorem readAfterExtra_ok {flags : Nat} {s : List Nat} {r : TrunAtom} {rest : List Nat}
    (h : readAfterExtra flags s = .ok r rest) :
    flags &&& FIRST_SAMPLE_FLAGS_PRESENT = 0 ∧
    r.flags = flags ∧
    r.first_sample_flags = none ∧
    ∃ s1 s2 : List Nat,
      read_be_u32 s = .ok (r.sample_count, s1) ∧
      readDataOffset flags s1 = .ok (r.data_offset, s2) ∧
      readSamples flags r.sample_count ⟨[], [], [], 0, 0, s2⟩ =
        .ok ⟨r.sample_duration, r.sample_size, r.sample_flags,
             r.total_sample_size, r.total_sample_duration, rest⟩ := by
  rw [readAfterExtra] at h
  split at h
  · simp at h
  · rename_i sc s1 hr
    split at h
    · simp at h
    · rename_i dOff s2 hdo
      split at h
      · simp at h
      · rename_i fsf s3 hff
        split at h
        · simp at h
        · rename_i hniso
          split at h
          · simp at h
          · split at h
            · simp at h
            · rename_i st hrs
              simp only [DResult.ok.injEq] at h
              obtain ⟨hrec, hrest⟩ := h
              have hfsf : fsf = none := by
                cases fsf with
                | none => rfl
                | some v => simp at hniso
              subst hfsf
              obtain ⟨hbit, hs3⟩ := readFirstSampleFlags_ok_none hff
              subst hs3
              subst hrec
              subst hrest
              exact ⟨hbit, rfl, rfl, s1, s3, hr, hdo, hrs⟩

theorem readAfterExtra_err {flags : Nat} {s : List Nat} {e : Error}
    (h : readAfterExtra flags s = .err e) : e = .ioError := by
  rw [readAfterExtra] at h
  split at h
  · rename_i e' hr
    simp only [DResult.err.injEq] at h
    subst h
    exact read_be_u32_err hr
  · rename_i sc s1 hr
    split at h
    · rename_i e' hdo
      simp only [DResult.err.injEq] at h
      subst h
      exact readDataOffset_err hdo
    · rename_i dOff s2 hdo
      split at h
      · rename_i e' hff
        simp only [DResult.err.injEq] at h
        subst h
        exact readFirstSampleFlags_err hff
      · rename_i fsf s3 hff
        split at h
        · simp at h
        · rename_i hniso
          split at h
          · rename_i hcond
            rw [Bool.and_eq_true] at hcond
            exact absurd hcond.1 hniso
          · split at h
            · rename_i e' hrs
              simp only [DResult.err.injEq] at h
              subst h
              exact readSamples_err hrs
            · simp at h

/-! ### Panic behaviour -/

theorem readAfterExtra_no_panic {flags : Nat} (s : List Nat)
    (hb : flags &&& FIRST_SAMPLE_FLAGS_PRESENT = 0) :
    (readAfterExtra flags s).isPanic = false := by
  rw [readAfterExtra]
  split
  · rfl
  · rename_i sc s1 hr
    split
    · rfl
    · rename_i dOff s2 hdo
      split
      · rfl
      · rename_i fsf s3 hff
        have hfsf : fsf = none := by
          rw [readFirstSampleFlags, if_pos hb] at hff
          simp only [Except.ok.injEq, Prod.mk.injEq] at hff
          exact hff.1.symm
        subst hfsf
        simp only [Option.isSome_none, Bool.false_eq_true, if_false, Bool.false_and]
        split
        · rfl
        · rfl

theorem readAfterExtra_bitSet {flags : Nat} (s : List Nat)
    (hb : flags &&& FIRST_SAMPLE_FLAGS_PRESENT ≠ 0) :
    readAfterExtra flags s = .err .ioError ∨
    readAfterExtra flags s =
      .panic "not yet implemented: support truns with first-sample-flags-present" := by
  cases hr : read_be_u32 s with
  | error e =>
    have he := read_be_u32_err hr
    subst he
    left
    simp [readAfterExtra, hr]
  | ok p =>
    obtain ⟨sc, s1⟩ := p
    cases hdo : readDataOffset flags s1 with
    | error e =>
      have he := readDataOffset_err hdo
      subst he
      left
      simp [readAfterExtra, hr, hdo]
    | ok p2 =>
      obtain ⟨dOff, s2⟩ := p2
      rcases readFirstSampleFlags_bitSet s2 hb with hff | ⟨v, s3, hff⟩
      · left
        simp [readAfterExtra, hr, hdo, hff]
      · right
        simp [readAfterExtra, hr, hdo, hff]

/-! ### Arithmetic bound on sums of 32-bit values -/

theorem sum_le_of_forall_lt {l : List Nat} (h : ∀ x ∈ l, x < 4294967296) :
    l.sum ≤ l.length * 4294967295 := by
  induction l with
  | nil => simp
  | cons a t ih =>
    simp only [List.sum_cons, List.length_cons]
    have ha : a < 4294967296 := h a (List.mem_cons_self a t)
    have ht := ih (fun x hx => h x (List.mem_cons_of_mem a hx))
    have hmul : (t.length + 1) * 4294967295 = t.length * 4294967295 + 4294967295 := by ring
    omega

/-! ### Full characterization of a successful decode -/

theorem trun_ok_spec {flags : Nat} {s : List Nat} {r : TrunAtom} {rest : List Nat}
    (h : readAfterExtra flags s = .ok r rest) :
    r.flags = flags ∧
    r.first_sample_flags = none ∧
    flags &&& FIRST_SAMPLE_FLAGS_PRESENT = 0 ∧
    r.sample_count < 4294967296 ∧
    r.sample_duration.length =
      (if flags &&& TrunAtom.SAMPLE_DURATION_PRESENT ≠ 0 then r.sample_count else 0) ∧
    r.sample_size.length =
      (if flags &&& TrunAtom.SAMPLE_SIZE_PRESENT ≠ 0 then r.sample_count else 0) ∧
    r.sample_flags.length =
      (if flags &&& TrunAtom.SAMPLE_FLAGS_PRESENT ≠ 0 then r.sample_count else 0) ∧
    (∀ x ∈ r.sample_duration, x < 4294967296) ∧
    (∀ x ∈ r.sample_size, x < 4294967296) ∧
    r.sample_duration.sum < u64Mod ∧
    r.sample_size.sum < u64Mod ∧
    r.total_sample_duration = r.sample_duration.sum ∧
    r.total_sample_size = r.sample_size.sum ∧
    r.data_offset.isSome = (flags &&& DATA_OFFSET_PRESENT != 0) ∧
    s.length = headerBytes flags + r.sample_count * rowBytes flags + rest.length ∧
    rest = s.drop (headerBytes flags + r.sample_count * rowBytes flags) := by
  obtain ⟨hbit, hfl, hfsf, s1, s2, hr, hdo, hrs⟩ := readAfterExtra_ok h
  obtain ⟨hsc, hdrop1, hlen1⟩ := read_be_u32_ok hr
  obtain ⟨hdsome, hdrop2, hlen2, _⟩ := readDataOffset_ok hdo
  obtain ⟨ds, ss, fs, m1, m2, m3, m4, m5, m6, m7, m8, m9, m10, m11, m12⟩ :=
    readSamples_ok r.sample_count (by norm_num [u64Mod]) (by norm_num [u64Mod]) hrs
  simp only [List.nil_append] at m1 m2 m3
  simp only [Nat.zero_add] at m9 m10
  dsimp only at m11 m12
  -- the sums of the per-sample sequences are small enough not to wrap in u64
  have hdlen : ds.length ≤ r.sample_count := by rw [m4]; split <;> omega
  have hslen : ss.length ≤ r.sample_count := by rw [m5]; split <;> omega
  have hdsum : ds.sum < u64Mod := by
    have h1 := sum_le_of_forall_lt m7
    have h2 : ds.length * 4294967295 ≤ r.sample_count * 4294967295 :=
      Nat.mul_le_mul_right _ hdlen
    have h3 : r.sample_count * 4294967295 ≤ 4294967295 * 4294967295 :=
      Nat.mul_le_mul_right _ (by omega)
    have : (4294967295 : Nat) * 4294967295 < u64Mod := by norm_num [u64Mod]
    omega
  have hssum : ss.sum < u64Mod := by
    have h1 := sum_le_of_forall_lt m8
    have h2 : ss.length * 4294967295 ≤ r.sample_count * 4294967295 :=
      Nat.mul_le_mul_right _ hslen
    have h3 : r.sample_count * 4294967295 ≤ 4294967295 * 4294967295 :=
      Nat.mul_le_mul_right _ (by omega)
    have : (4294967295 : Nat) * 4294967295 < u64Mod := by norm_num [u64Mod]
    omega
  have hnb : ¬flags &&& FIRST_SAMPLE_FLAGS_PRESENT ≠ 0 := by simp [hbit]
  have hheader : headerBytes flags =
      4 + (if flags &&& DATA_OFFSET_PRESENT ≠ 0 then 4 else 0) := by
    rw [headerBytes, if_neg hnb, Nat.add_zero]
  refine ⟨hfl, hfsf, hbit, hsc, ?_, ?_, ?_, ?_, ?_, ?_, ?_, ?_, ?_, hdsome, ?_, ?_⟩
  · rw [m1]; exact m4
  · rw [m2]; exact m5
  · rw [m3]; exact m6
  · rw [m1]; exact m7
  · rw [m2]; exact m8
  · rw [m1]; exact hdsum
  · rw [m2]; exact hssum
  · rw [m9, m1, Nat.mod_eq_of_lt hdsum]
  · rw [m10, m2, Nat.mod_eq_of_lt hssum]
  · rw [hheader, hlen1, hlen2, m12]
    ring
  · rw [m11, hdrop2, hdrop1, List.drop_drop, List.drop_drop, hheader]
    congr 1
    ring

/-- If the duration column is present and the stream is already empty, the
first loop iteration fails with an I/O error, whatever the count. -/
theorem readSamples_succ_nil {flags : Nat} {n : Nat} {st : LoopState}
    (hb : flags &&& TrunAtom.SAMPLE_DURATION_PRESENT ≠ 0) (hst : st.stream = []) :
    readSamples flags (n + 1) st = .error .ioError := by
  have hdur : readDurationField flags st = .error .ioError := by
    rw [readDurationField, if_pos hb, hst]
    rfl
  have hrow : readRow flags st = .error .ioError := by
    rw [readRow, hdur]
  rw [readSamples, hrow]

/-- The worked scenario of the spec: flags 0x301, two samples, data offset
16, rows (duration 100, size 1000) and (duration 100, size 2000). -/
def scenarioBytes : List Nat :=
  [0, 0, 0, 2, 0, 0, 0, 16, 0, 0, 0, 100, 0, 0, 3, 232, 0, 0, 0, 100, 0, 0, 7, 208]

/-- The record the spec expects the scenario to decode to. -/
def scenarioAtom : TrunAtom :=
  { flags := 769
    data_offset := some 16
    sample_count := 2
    first_sample_flags := none
    sample_duration := [100, 100]
    sample_size := [1000, 2000]
    sample_flags := []
    total_sample_size := 3000
    total_sample_duration := 200 }

/-! ### Claim theorems -/

/-- C1 (counterexample): with flags 0x000004 (only the first-sample-override
bit set) and eight bytes available, decode reaches the unimplemented-feature
gate and panics via `todo!`; it does not return a recoverable
`UnsupportedFeature` error value as the claim states. -/
theorem spec_c1_counterexample :
    readAfterExtra 4 [0, 0, 0, 0, 0, 0, 0, 0] =
      .panic "not yet implemented: support truns with first-sample-flags-present" := by
  decide

/-- C1 (amended): for every flags value with the first-sample-override bit
(0x000004) set, decode never succeeds: it either returns an I/O error value
(when a header read hits end of stream before the gate) or panics at the
`todo!` unimplemented-feature gate; an `UnsupportedFeature` error value is
never produced. -/
theorem spec_c1_amended (flags : Nat) (s : List Nat)
    (hb : flags &&& FIRST_SAMPLE_FLAGS_PRESENT ≠ 0) :
    (readAfterExtra flags s).isOk = false ∧
    (readAfterExtra flags s = .err .ioError ∨
      readAfterExtra flags s =
        .panic "not yet implemented: support truns with first-sample-flags-present") := by
  rcases readAfterExtra_bitSet s hb with h | h
  · exact ⟨by rw [h]; rfl, Or.inl h⟩
  · exact ⟨by rw [h]; rfl, Or.inr h⟩

/-- C1 witness: the amended claim holds at flags 0x000004 with eight zero
bytes. -/
theorem spec_c1_amended_witness :
    (4 &&& FIRST_SAMPLE_FLAGS_PRESENT ≠ 0) ∧
    ((readAfterExtra 4 [0, 0, 0, 0, 0, 0, 0, 0]).isOk = false ∧
      (readAfterExtra 4 [0, 0, 0, 0, 0, 0, 0, 0] = .err .ioError ∨
        readAfterExtra 4 [0, 0, 0, 0, 0, 0, 0, 0] =
          .panic "not yet implemented: support truns with first-sample-flags-present")) :=
  ⟨by decide, spec_c1_amended 4 [0, 0, 0, 0, 0, 0, 0, 0] (by decide)⟩

/-- C2 (counterexample): with flags 0x100 and `sample_count = 0xFFFFFFFF`
followed by no further bytes, decode fails with an I/O error inside the
per-sample loop, not with `ResourceLimitExceeded` as the claim states. -/
theorem spec_c2_counterexample :
    readAfterExtra 256 [255, 255, 255, 255] = .err .ioError ∧
    (readAfterExtra 256 [255, 255, 255, 255]).isLimitErr = false := by
  have hr : read_be_u32 [255, 255, 255, 255] = .ok (4294967295, []) := by rfl
  have h1 : readDataOffset 256 [] = .ok (none, []) := by rfl
  have h2 : readFirstSampleFlags 256 [] = .ok (none, []) := by rfl
  have h3 : readSamples 256 4294967295 ⟨[], [], [], 0, 0, []⟩ = .error .ioError := by
    have he : (4294967295 : Nat) = 4294967294 + 1 := by norm_num
    rw [he]
    exact readSamples_succ_nil (by decide) rfl
  have h : readAfterExtra 256 [255, 255, 255, 255] = .err .ioError := by
    simp [readAfterExtra, hr, h1, h2, h3]
  exact ⟨h, by rw [h]; rfl⟩

/-- C2 (amended): no limit is applied to `sample_count` (the source's
TODO); decode never fails with `ResourceLimitExceeded` on any input — an
oversized count instead drives the loop until a read fails with an I/O
error. -/
theorem spec_c2_amended (flags : Nat) (s : List Nat) :
    (readAfterExtra flags s).isLimitErr = false := by
  cases h : readAfterExtra flags s with
  | ok r rest => rfl
  | err e =>
    have he := readAfterExtra_err h
    subst he
    rfl
  | panic m => rfl

/-- C3 (counterexample): with flags 0x404 (first-sample-override and
per-sample-flags both set) and eight bytes available, decode panics at the
`todo!` gate before the conflicting-flags check; it does not return the
`ConflictingFlags` decode error as the claim states. -/
theorem spec_c3_counterexample :
    readAfterExtra 1028 [0, 0, 0, 0, 0, 0, 0, 0] =
      .panic "not yet implemented: support truns with first-sample-flags-present" ∧
    (readAfterExtra 1028 [0, 0, 0, 0, 0, 0, 0, 0]).isDecodeErr = false := by
  constructor
  · decide
  · decide

/-- C3 (amended): for every flags value with both the first-sample-override
bit (0x000004) and the per-sample-flags bit (0x000400) set, decode never
returns the `ConflictingFlags` decode error (that check is dead code behind
the `todo!` gate); it either panics at the gate or fails with an I/O error
on a short header read. -/
theorem spec_c3_amended (flags : Nat) (s : List Nat)
    (hb1 : flags &&& FIRST_SAMPLE_FLAGS_PRESENT ≠ 0)
    (_hb2 : flags &&& TrunAtom.SAMPLE_FLAGS_PRESENT ≠ 0) :
    (readAfterExtra flags s).isDecodeErr = false ∧
    (readAfterExtra flags s = .err .ioError ∨
      readAfterExtra flags s =
        .panic "not yet implemented: support truns with first-sample-flags-present") := by
  rcases readAfterExtra_bitSet s hb1 with h | h
  · exact ⟨by rw [h]; rfl, Or.inl h⟩
  · exact ⟨by rw [h]; rfl, Or.inr h⟩

/-- C3 witness: the amended claim holds at flags 0x404 with eight zero
bytes. -/
theorem spec_c3_amended_witness :
    (1028 &&& FIRST_SAMPLE_FLAGS_PRESENT ≠ 0) ∧
    (1028 &&& TrunAtom.SAMPLE_FLAGS_PRESENT ≠ 0) ∧
    ((readAfterExtra 1028 [0, 0, 0, 0, 0, 0, 0, 0]).isDecodeErr = false ∧
      (readAfterExtra 1028 [0, 0, 0, 0, 0, 0, 0, 0] = .err .ioError ∨
        readAfterExtra 1028 [0, 0, 0, 0, 0, 0, 0, 0] =
          .panic "not yet implemented: support truns with first-sample-flags-present")) :=
  ⟨by decide, by decide, spec_c3_amended 1028 [0, 0, 0, 0, 0, 0, 0, 0] (by decide) (by decide)⟩

/-- C4: for every successfully decoded record, `sample_duration` has length
`sample_count` when the duration bit (0x000100) is set and 0 otherwise, and
the same law holds for `sample_size` with the size bit (0x000200) and for
`sample_flags` with the per-sample-flags bit (0x000400). -/
theorem spec_c4_lengths (flags : Nat) (s : List Nat) (r : TrunAtom) (rest : List Nat)
    (h : readAfterExtra flags s = .ok r rest) :
    r.sample_duration.length =
      (if flags &&& TrunAtom.SAMPLE_DURATION_PRESENT ≠ 0 then r.sample_count else 0) ∧
    r.sample_size.length =
      (if flags &&& TrunAtom.SAMPLE_SIZE_PRESENT ≠ 0 then r.sample_count else 0) ∧
    r.sample_flags.length =
      (if flags &&& TrunAtom.SAMPLE_FLAGS_PRESENT ≠ 0 then r.sample_count else 0) := by
  obtain ⟨_, _, _, _, h5, h6, h7, _⟩ := trun_ok_spec h
  exact ⟨h5, h6, h7⟩

/-- C4 witness: the length law holds on the spec's worked scenario. -/
theorem spec_c4_witness :
    readAfterExtra 769 scenarioBytes = .ok scenarioAtom [] ∧
    (scenarioAtom.sample_duration.length =
      (if 769 &&& TrunAtom.SAMPLE_DURATION_PRESENT ≠ 0 then scenarioAtom.sample_count else 0) ∧
    scenarioAtom.sample_size.length =
      (if 769 &&& TrunAtom.SAMPLE_SIZE_PRESENT ≠ 0 then scenarioAtom.sample_count else 0) ∧
    scenarioAtom.sample_flags.length =
      (if 769 &&& TrunAtom.SAMPLE_FLAGS_PRESENT ≠ 0 then scenarioAtom.sample_count else 0)) :=
  ⟨by decide, spec_c4_lengths 769 scenarioBytes scenarioAtom [] (by decide)⟩

/-- C5: for every successfully decoded record, `total_sample_duration`
equals the sum of `sample_duration` and `total_sample_size` equals the sum
of `sample_size`, the empty sequences summing to 0. -/
theorem spec_c5_totals (flags : Nat) (s : List Nat) (r : TrunAtom) (rest : List Nat)
    (h : readAfterExtra flags s = .ok r rest) :
    r.total_sample_duration = r.sample_duration.sum ∧
    r.total_sample_size = r.sample_size.sum := by
  obtain ⟨_, _, _, _, _, _, _, _, _, _, _, h12, h13, _⟩ := trun_ok_spec h
  exact ⟨h12, h13⟩

/-- C5 witness: the totals law holds on the spec's worked scenario. -/
theorem spec_c5_witness :
    readAfterExtra 769 scenarioBytes = .ok scenarioAtom [] ∧
    scenarioAtom.total_sample_duration = scenarioAtom.sample_duration.sum ∧
    scenarioAtom.total_sample_size = scenarioAtom.sample_size.sum := by
  have h := spec_c5_totals 769 scenarioBytes scenarioAtom [] (by decide)
  exact ⟨by decide, h.1, h.2⟩

/-- C6: for every successfully decoded record, `data_offset` is present iff
the data-offset bit (0x000001) is set, and when present its value is the
sign-extension to i32 of the 4-byte big-endian field following
`sample_count`; encoded 0xFFFFFFFF decodes to -1 and 0x00000010 to 16. -/
theorem spec_c6_data_offset (flags : Nat) (s : List Nat) (r : TrunAtom) (rest : List Nat)
    (h : readAfterExtra flags s = .ok r rest) :
    (r.data_offset.isSome = (flags &&& DATA_OFFSET_PRESENT != 0)) ∧
    (∀ v s2, flags &&& DATA_OFFSET_PRESENT ≠ 0 →
      read_be_u32 (List.drop 4 s) = .ok (v, s2) →
      r.data_offset = some (sign_extend_leq32_to_i32 v 32)) ∧
    sign_extend_leq32_to_i32 4294967295 32 = -1 ∧
    sign_extend_leq32_to_i32 16 32 = 16 := by
  obtain ⟨_, _, _, s1, s2, hr, hdo, _⟩ := readAfterExtra_ok h
  obtain ⟨_, hdrop1, _⟩ := read_be_u32_ok hr
  obtain ⟨hdsome, _, _, hval⟩ := readDataOffset_ok hdo
  refine ⟨hdsome, ?_, by decide, by decide⟩
  intro v s2' hbne hrd
  refine hval v s2' ?_ hbne
  rw [hdrop1]
  exact hrd

/-- C6 witness: on the spec's worked scenario the offset field 0x00000010
decodes to `some 16`. -/
theorem spec_c6_witness :
    readAfterExtra 769 scenarioBytes = .ok scenarioAtom [] ∧
    scenarioAtom.data_offset = some 16 := by
  refine ⟨by decide, ?_⟩
  have h := spec_c6_data_offset 769 scenarioBytes scenarioAtom [] (by decide)
  have hv := h.2.1 16 [0, 0, 0, 100, 0, 0, 3, 232, 0, 0, 0, 100, 0, 0, 7, 208]
    (by decide) (by rfl)
  rw [hv]
  decide

/-- C7: every successful decode consumes, beyond the extended header,
exactly 4 bytes for `sample_count`, 4 more for each optional header field
whose bit is set, and `sample_count` times 4 bytes for each per-sample
column whose bit is set; with `sample_count = 0` the sequences are empty,
the totals zero, and no per-sample bytes are read. -/
theorem spec_c7_consumed (flags : Nat) (s : List Nat) (r : TrunAtom) (rest : List Nat)
    (h : readAfterExtra flags s = .ok r rest) :
    s.length = headerBytes flags + r.sample_count * rowBytes flags + rest.length ∧
    rest = s.drop (headerBytes flags + r.sample_count * rowBytes flags) ∧
    (r.sample_count = 0 →
      r.sample_duration = [] ∧ r.sample_size = [] ∧ r.sample_flags = [] ∧
      r.total_sample_duration = 0 ∧ r.total_sample_size = 0 ∧
      s.length = headerBytes flags + rest.length) := by
  obtain ⟨_, _, _, _, h5, h6, h7, _, _, _, _, h12, h13, _, h15, h16⟩ := trun_ok_spec h
  refine ⟨h15, h16, ?_⟩
  intro hc
  rw [hc] at h5 h6 h7 h15
  simp only [ite_self] at h5 h6 h7
  rw [List.length_eq_zero] at h5 h6 h7
  refine ⟨h5, h6, h7, ?_, ?_, ?_⟩
  · rw [h12, h5]
    rfl
  · rw [h13, h6]
    rfl
  · simpa using h15

/-- C7 witness: on the spec's worked scenario (24 input bytes, header 8
bytes, two rows of 8 bytes) the reader consumes everything. -/
theorem spec_c7_witness :
    readAfterExtra 769 scenarioBytes = .ok scenarioAtom [] ∧
    scenarioBytes.length =
      headerBytes 769 + scenarioAtom.sample_count * rowBytes 769 + List.length ([] : List Nat) :=
  ⟨by decide, (spec_c7_consumed 769 scenarioBytes scenarioAtom [] (by decide)).1⟩

/-- C8: whenever decode fails with a returned error, that error is the I/O
failure, and no record accompanies it; in particular the spec's truncation
scenario (stream ending after the first row's duration with the size column
expected) fails exactly this way. -/
theorem spec_c8_short_read (flags : Nat) (s : List Nat) (e : Error)
    (h : readAfterExtra flags s = .err e) :
    e = .ioError ∧
    readAfterExtra 768 [0, 0, 0, 1, 0, 0, 0, 100] = .err .ioError :=
  ⟨readAfterExtra_err h, by decide⟩

/-- C8 witness: the truncation scenario satisfies the hypothesis. -/
theorem spec_c8_witness :
    readAfterExtra 768 [0, 0, 0, 1, 0, 0, 0, 100] = .err .ioError ∧
    (Error.ioError = Error.ioError ∧
      readAfterExtra 768 [0, 0, 0, 1, 0, 0, 0, 100] = .err .ioError) :=
  ⟨by decide, spec_c8_short_read 768 [0, 0, 0, 1, 0, 0, 0, 100] .ioError (by decide)⟩

/-- C9: for every flags value with the first-sample-override bit clear,
decode never panics: the `todo!` branch is unreachable and the outcome is
either a successful record or an I/O error value returned through the
Result. -/
theorem spec_c9_no_panic (flags : Nat) (s : List Nat)
    (hb : flags &&& FIRST_SAMPLE_FLAGS_PRESENT = 0) :
    (readAfterExtra flags s).isPanic = false ∧
    ((readAfterExtra flags s).isOk = true ∨ readAfterExtra flags s = .err .ioError) := by
  refine ⟨readAfterExtra_no_panic s hb, ?_⟩
  cases h : readAfterExtra flags s with
  | ok r rest => left; rfl
  | err e =>
    right
    have he := readAfterExtra_err h
    subst he
    rfl
  | panic m =>
    have hp := readAfterExtra_no_panic s hb
    rw [h] at hp
    simp [DResult.isPanic] at hp

/-- C9 witness: the panic-freedom holds at flags 0 on the empty stream. -/
theorem spec_c9_witness :
    (0 &&& FIRST_SAMPLE_FLAGS_PRESENT = 0) ∧
    ((readAfterExtra 0 []).isPanic = false ∧
      ((readAfterExtra 0 []).isOk = true ∨ readAfterExtra 0 [] = .err .ioError)) :=
  ⟨by decide, spec_c9_no_panic 0 [] (by decide)⟩

/-- C10: the running totals are accumulated in 64-bit arithmetic from
32-bit per-sample values, and for every successful decode — the count being
bounded by 2^32 - 1 — the mathematical sums stay below 2^64, so the stored
totals equal the exact sums with no wraparound. -/
theorem spec_c10_no_overflow (flags : Nat) (s : List Nat) (r : TrunAtom) (rest : List Nat)
    (h : readAfterExtra flags s = .ok r rest) :
    r.sample_count < 4294967296 ∧
    (∀ x ∈ r.sample_duration, x < 4294967296) ∧
    (∀ x ∈ r.sample_size, x < 4294967296) ∧
    r.sample_duration.sum < u64Mod ∧
    r.sample_size.sum < u64Mod ∧
    r.total_sample_duration = r.sample_duration.sum ∧
    r.total_sample_size = r.sample_size.sum := by
  obtain ⟨_, _, _, h4, _, _, _, h8, h9, h10, h11, h12, h13, _⟩ := trun_ok_spec h
  exact ⟨h4, h8, h9, h10, h11, h12, h13⟩

/-- C10 witness: on the spec's worked scenario the sums are below 2^64 and
the totals equal them exactly. -/
theorem spec_c10_witness :
    readAfterExtra 769 scenarioBytes = .ok scenarioAtom [] ∧
    scenarioAtom.sample_duration.sum < u64Mod ∧
    scenarioAtom.sample_size.sum < u64Mod ∧
    scenarioAtom.total_sample_duration = scenarioAtom.sample_duration.sum := by
  have h := spec_c10_no_overflow 769 scenarioBytes scenarioAtom [] (by decide)
  exact ⟨by decide, h.2.2.2.1, h.2.2.2.2.1, h.2.2.2.2.2.1⟩
